import Mathlib

/-!
Verification development for the cruiseschedule repository
(generate_cobh_events.py and generate_cobh_ics.py).

The two Python scripts are shallowly embedded below.  Machine dates and
times are represented canonically: a calendar date is its rata-die day
number (days since 1970-01-01, via the standard civil-calendar
conversion), and a civil wall-clock instant in the fixed Europe/Dublin
timezone is its minute count since the same epoch.  Python's
datetime/date tagged distinction becomes the inductive type Temporal.
The external dateutil parser and the HTML/BeautifulSoup layer are
modelled at the boundary: parsers are explicit function arguments where
a statement is parser-generic, and pyParse is an executable model of
dateutil.parser.parse (dayfirst=True) on the date formats that occur in
this development.
-/

namespace CobhSched

/-- A calendar date, represented by its rata-die day number
(days since 1970-01-01). -/
structure Date where
  rd : Int
deriving DecidableEq, Repr

/-- A civil wall-clock instant (Europe/Dublin wall time), represented as
minutes since 1970-01-01 00:00. -/
structure DateTime where
  minutes : Int
deriving DecidableEq, Repr

/-- Standard civil-calendar conversion (Hinnant's days_from_civil) from
year/month/day to the rata-die day number.  Valid for years from 1. -/
def Date.ofYmd (y m d : Nat) : Date :=
  let yy := if m ≤ 2 then y - 1 else y
  let era := yy / 400
  let yoe := yy - era * 400
  let mp := if 2 < m then m - 3 else m + 9
  let doy := (153 * mp + 2) / 5 + d - 1
  let doe := yoe * 365 + yoe / 4 - yoe / 100 + doy
  ⟨(((era * 146097 + doe : Nat)) : Int) - 719468⟩

/-- Inverse civil-calendar conversion, returning only the year component
(all the embedded code ever inspects is the year, in
parse_date_only_line). -/
def Date.year (dt : Date) : Int :=
  let z := dt.rd + 719468
  let era := Int.fdiv z 146097
  let doe := (z - era * 146097).toNat
  let yoe := (doe - doe / 1460 + doe / 36524 - doe / 146096) / 365
  let y : Int := (yoe : Int) + era * 400
  let doy := doe - (365 * yoe + yoe / 4 - yoe / 100)
  let mp := (5 * doy + 2) / 153
  let m := if mp < 10 then mp + 3 else mp - 9
  if m ≤ 2 then y + 1 else y

/-- Add a number of days to a date (Python: date + timedelta(days=n)). -/
def Date.addDays (d : Date) (n : Int) : Date := ⟨d.rd + n⟩

/-- Build an instant from civil components. -/
def DateTime.ofYmdhm (y m d hh mm : Nat) : DateTime :=
  ⟨(Date.ofYmd y m d).rd * 1440 + hh * 60 + mm⟩

/-- The date component of an instant (Python: datetime.date()). -/
def DateTime.toDate (t : DateTime) : Date := ⟨Int.fdiv t.minutes 1440⟩

/-- Add minutes to an instant (Python: datetime + timedelta). -/
def DateTime.addMin (t : DateTime) (n : Int) : DateTime := ⟨t.minutes + n⟩

/-- Python's date/datetime tagged distinction: an event endpoint is
either a timezone-localized instant or a bare date. -/
inductive Temporal where
  | dtime (t : DateTime)
  | dateOnly (d : Date)
deriving DecidableEq, Repr

/-- Whether two endpoints are the same variant kind (both instants or
both bare dates). -/
def sameKind : Temporal → Temporal → Bool
  | .dtime _, .dtime _ => true
  | .dateOnly _, .dateOnly _ => true
  | _, _ => false

/-! ### String helpers (models of the Python string operations used) -/

/-- ASCII lower-casing of one character (model of str.lower per char). -/
def lcChar (c : Char) : Char :=
  if 'A' ≤ c && c ≤ 'Z' then Char.ofNat (c.toNat + 32) else c

/-- Model of Python str.lower on the ASCII strings this code handles. -/
def strLower (s : String) : String := ⟨s.data.map lcChar⟩

/-- Whitespace test used by the strip model. -/
def isWs (c : Char) : Bool := c = ' ' || c = '\t' || c = '\n' || c = '\r'

/-- Drop leading whitespace characters. -/
def dropWsL : List Char → List Char
  | [] => []
  | c :: r => if isWs c then dropWsL r else c :: r

/-- Model of Python str.strip(). -/
def strStrip (s : String) : String :=
  ⟨(dropWsL (dropWsL s.data.reverse)).reverse⟩

/-- Whether the first list starts with the second list. -/
def startsWithList : List Char → List Char → Bool
  | _, [] => true
  | [], _ :: _ => false
  | a :: as, b :: bs => a = b && startsWithList as bs

/-- Whether needle occurs as a contiguous sublist of the haystack. -/
def hasSub (needle : List Char) : List Char → Bool
  | [] => startsWithList [] needle
  | c :: t => startsWithList (c :: t) needle || hasSub needle t

/-- Model of Python's `needle in s` substring test. -/
def strContains (s pat : String) : Bool := hasSub pat.data s.data

/-- Word character for the regex word-boundary \b ([A-Za-z0-9_]). -/
def isWordChar (c : Char) : Bool := c.isAlphanum || c = '_'

/-- Whether the char list starts with a 20xx year token followed by a
word boundary (tail of the regex match for \b20\d\d\b). -/
def yearAt : List Char → Bool
  | '2' :: '0' :: c :: d :: rest =>
      c.isDigit && d.isDigit &&
        (match rest with
         | [] => true
         | e :: _ => !isWordChar e)
  | _ => false

/-- Scan for a \b20\d\d\b match; prev is the character before the
current position (none at the start of the string). -/
def hasYearAux (prev : Option Char) : List Char → Bool
  | [] => false
  | c :: rest =>
      ((match prev with
        | none => true
        | some p => !isWordChar p) && yearAt (c :: rest))
      || hasYearAux (some c) rest

/-- Model of re.search(r"\b20\d{2}\b", t): the text contains a
boundary-delimited four-digit year starting with 20. -/
def hasYearToken (t : String) : Bool := hasYearAux none t.data

/-- Whether a (stripped) string fully matches \d{1,2}:\d{2}. -/
def isHHMMstr (s : String) : Bool :=
  match s.data with
  | [a, ':', b, c] => a.isDigit && b.isDigit && c.isDigit
  | [a, b, ':', c, d] => a.isDigit && b.isDigit && c.isDigit && d.isDigit
  | _ => false

/-! ### Model of the external dateutil parser -/

/-- Split a char list at every occurrence of a separator character. -/
def splitCharAux (sep : Char) (acc : List Char) : List Char → List (List Char)
  | [] => [acc.reverse]
  | c :: r =>
      if c = sep then acc.reverse :: splitCharAux sep [] r
      else splitCharAux sep (c :: acc) r

/-- Split a char list on a separator character. -/
def splitChar (sep : Char) (l : List Char) : List (List Char) :=
  splitCharAux sep [] l

/-- Numeric value of a list of decimal digit characters. -/
def digitsVal (l : List Char) : Nat :=
  l.foldl (fun a c => 10 * a + (c.toNat - 48)) 0

/-- Whether the char list is a non-empty run of decimal digits. -/
def allDigits (l : List Char) : Bool := !l.isEmpty && l.all Char.isDigit

/-- English month names and abbreviations recognized by the parser
model, lower-cased. -/
def monthNames : List (String × Nat) :=
  [("january", 1), ("february", 2), ("march", 3), ("april", 4),
   ("may", 5), ("june", 6), ("july", 7), ("august", 8),
   ("september", 9), ("october", 10), ("november", 11), ("december", 12),
   ("jan", 1), ("feb", 2), ("mar", 3), ("apr", 4), ("jun", 6),
   ("jul", 7), ("aug", 8), ("sep", 9), ("oct", 10), ("nov", 11), ("dec", 12)]

/-- Look a token up as a month name (case-insensitive). -/
def monthFromName (tok : String) : Option Nat :=
  (monthNames.find? (fun p => p.1 = strLower tok)).map (·.2)

/-- Accumulator state of the parser model. -/
structure PState where
  day : Option Nat
  month : Option Nat
  year : Option Nat
  hour : Option Nat
  minute : Option Nat
deriving Repr

/-- Consume one whitespace-separated token of the date string: a time
token HH:MM, a slashed numeric date D/M/Y (dayfirst), a bare number
(4-digit year, else a day of month), or a month name; other tokens are
skipped, as dateutil's fuzzy mode skips them. -/
def pStep (st : PState) (tok : List Char) : PState :=
  match splitChar ':' tok with
  | [h, m] =>
      if allDigits h && allDigits m && digitsVal h < 24 && digitsVal m < 60 then
        { st with hour := st.hour <|> some (digitsVal h),
                  minute := st.minute <|> some (digitsVal m) }
      else st
  | _ =>
    match splitChar '/' tok with
    | [d, m, y] =>
        if allDigits d && allDigits m && allDigits y then
          { st with day := st.day <|> some (digitsVal d),
                    month := st.month <|> some (digitsVal m),
                    year := st.year <|> some (digitsVal y) }
        else st
    | _ =>
      if allDigits tok then
        if tok.length = 4 then { st with year := st.year <|> some (digitsVal tok) }
        else { st with day := st.day <|> some (digitsVal tok) }
      else
        match monthFromName ⟨tok⟩ with
        | some m => { st with month := st.month <|> some m }
        | none => st

/-- Executable model of dateutil.parser.parse(s, dayfirst=True,
fuzzy=True) restricted to the date formats occurring in this
development: textual dates such as "Sat 14 March 2026" and slashed
day-first dates with an optional time such as "13/04/2026 09:00".
Returns the parsed instant (midnight when no time token is present), or
none when no complete valid date is recognized. -/
def pyParse (s : String) : Option DateTime :=
  let toks := (splitChar ' ' s.data).filter (fun t => !t.isEmpty)
  let st := toks.foldl pStep ⟨none, none, none, none, none⟩
  match st.day, st.month, st.year with
  | some d, some m, some y =>
      if 1 ≤ d && d ≤ 31 && 1 ≤ m && m ≤ 12 && 1 ≤ y then
        some (DateTime.ofYmdhm y m d (st.hour.getD 0) (st.minute.getD 0))
      else none
  | _, _, _ => none

/-! ### generate_cobh_events.py -/

/-- Embedding of is_midnight_like_time_str: a time string is
absent/midnight when its stripped form is one of the canonical midnight
spellings. -/
def is_midnight_like_time_str (t : String) : Bool :=
  let t := strStrip t
  t = "00:00" || t = "00:00:00" || t = "12:00 AM" || t = "12:00:00 AM"

/-- Embedding of parse_date_only_line, parametric in the external date
parser P (dateutil parse with dayfirst and fuzzy): best-effort parse of
the line, keeping only dates whose year is at least 2020. -/
def parse_date_only_line (P : String → Option DateTime) (line : String) :
    Option Date :=
  match P line with
  | none => none
  | some t => if 2020 ≤ t.toDate.year then some t.toDate else none

/-- Embedding of pick_first_hhmm: the first stripped line fully matching
the HH:MM pattern. -/
def pick_first_hhmm (lines : List String) : Option String :=
  (lines.find? (fun t => isHHMMstr (strStrip t))).map strStrip

/-- Embedding of pick_first_line_with_year: the first line containing a
boundary-delimited 20xx year. -/
def pick_first_line_with_year (lines : List String) : Option String :=
  lines.find? hasYearToken

/-- Embedding of the listing weak locality signal (parse_incobh_events
lines 432-436): the first listing line that is exactly one of the known
place names "Cobh" or "Cork". -/
def first_loc (lines : List String) : Option String :=
  lines.find? (fun t => t = "Cobh" || t = "Cork")

/-- Embedding of the is_cobh computation in enrich_from_event_page
(lines 278-282): some (locality matches "cobh" case-insensitively) when
the stripped locality string is non-empty, none otherwise. -/
def locality_is_cobh (locality : String) : Option Bool :=
  let l := strStrip locality
  if l = "" then none else some (strLower l = "cobh")

/-- Embedding of the locality filter in parse_incobh_events (lines
444-446): a candidate is dropped when the authoritative signal is a
confirmed non-Cobh locality, or when the signal is unknown and the weak
listing signal is not "Cobh". -/
def passes_locality_filter (is_cobh : Option Bool) (firstLoc : Option String) :
    Bool :=
  if is_cobh = some false then false
  else if is_cobh = none ∧ firstLoc ≠ some "Cobh" then false
  else true

/-- The result dictionary of enrich_from_event_page, also the enrichment
input of the listing pipeline. -/
structure Enrich where
  venue : String
  start : Option Temporal
  stop : Option Temporal
  tags : List String
  is_cobh : Option Bool
deriving DecidableEq, Repr

/-- The all-Unknown enrichment result
{venue: "", start: None, end: None, tags: [], is_cobh: None}. -/
def allUnknown : Enrich := ⟨"", none, none, [], none⟩

/-- Embedding of lines 458-462: the listing lines strictly after the
first line equal to "Cobh". -/
def afterFirstCobh : List String → List String
  | [] => []
  | x :: xs => if x = "Cobh" then xs else afterFirstCobh xs

/-- Embedding of the listing date fallback (parse_incobh_events lines
456-484): pick a date line and an optional HH:MM line from the block
(after the "Cobh" line when present), then build either an all-day pair
(start, start + 1 day) or a timed pair (start, start + 2 hours). -/
def listing_fallback_dates (P : String → Option DateTime)
    (lines : List String) : Option (Temporal × Temporal) :=
  let after := if lines.contains "Cobh" then afterFirstCobh lines else lines
  match pick_first_line_with_year after with
  | none => none
  | some date_line =>
    let time_line := (pick_first_hhmm after).getD "00:00"
    if is_midnight_like_time_str time_line then
      match parse_date_only_line P date_line with
      | none => none
      | some d0 => some (.dateOnly d0, .dateOnly (d0.addDays 1))
    else
      match P (date_line ++ " " ++ time_line) with
      | none => none
      | some sdt => some (.dtime sdt, .dtime (sdt.addMin 120))

/-- Embedding of the all-day end normalization (parse_incobh_events
lines 486-499): when start is a bare date, an instant end is first
downgraded to its date, then an end at or before start becomes
start + 1 day and any later end date gets one day added (inclusive to
exclusive conversion); when start is an instant the pair is returned
unchanged. -/
def normalize_allday (s e : Temporal) : Temporal × Temporal :=
  match s with
  | .dateOnly ds =>
    let e' := match e with
      | .dtime t => Temporal.dateOnly t.toDate
      | x => x
    (match e' with
     | .dateOnly de =>
        if de.rd ≤ ds.rd then (s, .dateOnly (ds.addDays 1))
        else (s, .dateOnly (de.addDays 1))
     | x => (s, x))
  | _ => (s, e)

/-- A normalized event record as assembled by either events pipeline. -/
structure EventRec where
  title : String
  start : Temporal
  stop : Temporal
  location : String
  url : String
  notes : String
  source : String
  tags : List String
deriving DecidableEq, Repr

/-- Embedding of the per-candidate body of parse_incobh_events (lines
414-514), for one heading block: apply the locality filter, take the
JSON-LD dates when both are present and the listing fallback otherwise,
normalize the all-day end, and assemble the record. -/
def incobh_candidate (P : String → Option DateTime) (title : String)
    (lines : List String) (event_url : String) (enrich : Enrich) :
    Option EventRec :=
  if passes_locality_filter enrich.is_cobh (first_loc lines) then
    let venue := enrich.venue
    let dates := match enrich.start, enrich.stop with
      | some s, some e => some (s, e)
      | _, _ => listing_fallback_dates P lines
    match dates with
    | none => none
    | some (s, e) =>
      let p := normalize_allday s e
      some { title := title, start := p.1, stop := p.2,
             location := if venue = "" then "Cobh" else venue,
             url := event_url, notes := "", source := "InCobh",
             tags := enrich.tags }
  else none

/-- Embedding of the per-row body of parse_sheet_events (lines 316-369),
taking the already-stripped cell values of one sheet row: rows without a
name or date are skipped; a missing or midnight-like start time makes an
all-day record (with a full-parse fallback when the year-2020 cutoff
rejects the date); otherwise a timed record whose end is the parsed end
time or start + 2 hours. -/
def parse_sheet_row (P : String → Option DateTime)
    (event_name date_raw start_time_raw end_time_raw notes : String) :
    Option EventRec :=
  if event_name = "" || date_raw = "" then none
  else
    let all_day := start_time_raw = "" || is_midnight_like_time_str start_time_raw
    if all_day then
      let d0 := match parse_date_only_line P date_raw with
        | some d => some d
        | none => (P date_raw).map (·.toDate)
      match d0 with
      | none => none
      | some d =>
        some { title := event_name, start := .dateOnly d,
               stop := .dateOnly (d.addDays 1), location := "Cobh",
               url := "", notes := notes, source := "The Arch", tags := [] }
    else
      match P (date_raw ++ " " ++ start_time_raw) with
      | none => none
      | some s =>
        let e := if end_time_raw = "" then s.addMin 120
          else match P (date_raw ++ " " ++ end_time_raw) with
            | some e' => e'
            | none => s.addMin 120
        some { title := event_name, start := .dtime s, stop := .dtime e,
               location := "Cobh", url := "", notes := notes,
               source := "The Arch", tags := [] }

/-- Embedding of the dedup key (parse_incobh_events line 526): the
lower-cased title paired with the start value.  In the source the second
component is str(start); since str is injective on the date and aware
datetime values occurring here, the key is modelled with the start value
itself. -/
def dedupKey (e : EventRec) : String × Temporal :=
  (strLower e.title, e.start)

/-- Worker of the dedup loop, carrying the set of keys seen so far. -/
def dedupGo (seen : List (String × Temporal)) : List EventRec → List EventRec
  | [] => []
  | e :: rest =>
      if dedupKey e ∈ seen then dedupGo seen rest
      else e :: dedupGo (dedupKey e :: seen) rest

/-- Embedding of the dedup pass (parse_incobh_events lines 522-531):
keep the first record for each key, drop later collisions. -/
def dedupEvents (l : List EventRec) : List EventRec := dedupGo [] l

/-! ### Detail enricher boundary model -/

/-- The fields of an embedded schema.org Event JSON-LD block as returned
by extract_event_jsonld. -/
structure JsonLdEvent where
  start : Option Temporal
  stop : Option Temporal
  venue : String
  locality : String
  tags : List String
deriving DecidableEq, Repr

/-- Boundary model of a fetched, parsed detail page.  The jsonld field
is the result of extract_event_jsonld.  The sections field models the
page's heading-anchored sections (heading text paired with the
immediately following text lines); the source code never reads it, it
exists so that properties about heading content can be stated. -/
structure PageData where
  jsonld : Option JsonLdEvent
  sections : List (String × List String)
deriving DecidableEq, Repr

/-- Embedding of enrich_from_event_page (lines 257-292), over the page
boundary model: a failed fetch (none) yields the all-Unknown result; a
page with an Event JSON-LD block yields its venue, dates, tags and the
locality signal; any other page yields the all-Unknown result. -/
def enrich_from_event_page (page : Option PageData) : Enrich :=
  match page with
  | none => allUnknown
  | some pg =>
    match pg.jsonld with
    | none => allUnknown
    | some js =>
      { venue := js.venue, start := js.start, stop := js.stop,
        tags := js.tags, is_cobh := locality_is_cobh js.locality }

/-! ### Listing crawl pagination model -/

/-- A heading element of a listing page: its optional event link and the
block lines that follow it. -/
structure Heading where
  link : Option String
  blockLines : List String
deriving DecidableEq, Repr

/-- A fetched listing page: its h3 heading elements. -/
structure ListingPage where
  h3s : List Heading
deriving DecidableEq, Repr

/-- The heading+link pairs of a page: the h3 elements that contain a
hyperlink (the candidate events of the Listing Block Segmenter). -/
def headingLinkPairs (pg : ListingPage) : List Heading :=
  pg.h3s.filter (fun h => h.link.isSome)

/-- Embedding of the pagination loop of parse_incobh_events (lines
393-405) at the page level: starting from page p with the given fuel,
record each page whose fetch is attempted; stop after a failed fetch or
after a page with no h3 elements, otherwise move to the next page. -/
def crawlGo (fetch : Nat → Option ListingPage) : Nat → Nat → List Nat
  | _, 0 => []
  | p, fuel + 1 =>
      p :: (match fetch p with
            | none => []
            | some pg =>
              if pg.h3s.isEmpty then []
              else crawlGo fetch (p + 1) fuel)

/-- The pages visited by the crawl: for page in range(1, 21). -/
def crawlVisited (fetch : Nat → Option ListingPage) : List Nat :=
  crawlGo fetch 1 20

/-! ### generate_cobh_ics.py -/

/-- A table cell at the boundary model: its cleaned text and, for the
identifier column, the href of its first hyperlink when one exists. -/
structure Cell where
  text : String
  href : Option String
deriving DecidableEq, Repr

/-- A table row is its list of cells. -/
abbrev Row := List Cell

/-- The cleaned cell texts of a row (text = [clean(c.get_text()) ...]). -/
def texts (r : Row) : List String := r.map (·.text)

/-- Embedding of is_month_row: exactly one cell whose text contains a
boundary-delimited 20xx year. -/
def is_month_row (cells : List String) : Bool :=
  match cells with
  | [c] => hasYearToken c
  | _ => false

/-- Embedding of is_header_row: the space-joined lower-cased cell texts
contain "vessel", "berth", "arrival" and "departure" as substrings. -/
def is_header_row (cells : List String) : Bool :=
  let text := String.intercalate " " (cells.map strLower)
  strContains text "vessel" && strContains text "berth" &&
    strContains text "arrival" && strContains text "departure"

/-- Embedding of find_col: the index of the first header cell whose
lower-cased text contains the lower-cased needle. -/
def find_col (headers : List String) (needle : String) : Option Nat :=
  let n := strLower needle
  headers.findIdx? (fun h => strContains (strLower h) n)

/-- The name-to-column mapping rebuilt at each header row. -/
structure ColMap where
  vessel : Option Nat
  berth : Option Nat
  arrival : Option Nat
  departure : Option Nat
  pax : Option Nat
  opline : Option Nat
  imo : Option Nat
deriving DecidableEq, Repr

/-- Embedding of the idx rebuild on a header row (main lines 204-212). -/
def build_colmap (headers : List String) : ColMap :=
  { vessel := find_col headers "vessel", berth := find_col headers "berth",
    arrival := find_col headers "arrival",
    departure := find_col headers "departure", pax := find_col headers "pax",
    opline := find_col headers "line", imo := find_col headers "imo" }

/-- The four required columns of a ColMap, when all are resolved. -/
def requiredCols (m : ColMap) : Option (Nat × Nat × Nat × Nat) :=
  match m.vessel, m.berth, m.arrival, m.departure with
  | some a, some b, some c, some d => some (a, b, c, d)
  | _, _, _, _ => none

/-- Embedding of the data-row admission test (main lines 218-223): all
required columns resolved and the row has more cells than the highest
required column index. -/
def dataOk (m : ColMap) (ncells : Nat) : Bool :=
  match requiredCols m with
  | none => false
  | some (a, b, c, d) => max a (max b (max c d)) < ncells

/-- Embedding of the row-classification loop of main (lines 189-223):
walk the rows of one table keeping the currently active ColMap; skip
empty and month rows, rebuild the map on header rows, and emit every
admitted data row paired with the map in force for it. -/
def processRows : Option ColMap → List Row → List (ColMap × Row)
  | _, [] => []
  | m, r :: rest =>
    let tx := texts r
    if r.isEmpty then processRows m rest
    else if is_month_row tx then processRows m rest
    else if is_header_row tx then processRows (some (build_colmap tx)) rest
    else
      match m with
      | none => processRows none rest
      | some mm =>
          if dataOk mm r.length then (mm, r) :: processRows (some mm) rest
          else processRows (some mm) rest

/-- Embedding of pax_int: digits-only extraction of the passenger cell,
none for an empty cell or a cell with no digits. -/
def pax_int (p : String) : Option Nat :=
  if p = "" then none
  else
    let ds := p.data.filter Char.isDigit
    if ds.isEmpty then none else some (digitsVal ds)

/-- Embedding of pax_signal: the passenger-tier signal glyph. -/
def pax_signal (n : Option Nat) : String :=
  match n with
  | none => "⚪"
  | some k => if 3000 ≤ k then "🔴" else if 1000 ≤ k then "🟠" else "🟢"

/-- Embedding of normalize_mt: normalize a reference link to an absolute
https link, prefixing the marinetraffic authority for bare paths. -/
def normalize_mt (url : String) : String :=
  if url = "" then ""
  else
    let u := strStrip url
    if u.startsWith "//" then "https:" ++ u
    else if u.startsWith "/" then "https://www.marinetraffic.com" ++ u
    else if u.startsWith "http" then u
    else "https://" ++ u

/-- The cleaned text of the cell at a column index ("" out of range; the
admission test keeps every used required index in range). -/
def cellText (cells : Row) (i : Nat) : String :=
  ((cells.get? i).map (·.text)).getD ""

/-- An optional column's cell text, guarded by the idx < len(cells)
check of the source (main lines 230-236). -/
def optColText (cells : Row) (i : Option Nat) : String :=
  match i with
  | some j => if j < cells.length then cellText cells j else ""
  | none => ""

/-- The normalized reference link of the identifier column (main lines
238-242): the first hyperlink of that cell when the column is resolved,
in range and a link exists, else the empty string. -/
def mtLink (cells : Row) (i : Option Nat) : String :=
  match i with
  | some j =>
      if j < cells.length then
        match (cells.get? j).bind (·.href) with
        | some h => normalize_mt h
        | none => ""
      else ""
  | none => ""

/-- A record of the Cobh cruise calendar. -/
structure CruiseRec where
  vessel : String
  start : DateTime
  stop : DateTime
  pax : Option Nat
  signal : String
  mt : String
deriving DecidableEq, Repr

/-- Embedding of the per-data-row body of main (lines 218-304) kept to
the Cobh calendar: re-check admission, extract the cell fields, drop
rows with an empty vessel, arrival or departure, drop rows whose
arrival or departure fails to parse (parser P models dateutil parse
with dayfirst), and retain the row only when the berth text is exactly
"Cobh Cruise Terminal". -/
def process_cobh_row (P : String → Option DateTime) (m : ColMap)
    (cells : Row) : Option CruiseRec :=
  match requiredCols m with
  | none => none
  | some (iv, ib, ia, idp) =>
    if max iv (max ib (max ia idp)) < cells.length then
      let berth_raw := cellText cells ib
      let vessel := cellText cells iv
      let arrival := cellText cells ia
      let departure := cellText cells idp
      let pax := optColText cells m.pax
      let mt := mtLink cells m.imo
      if vessel = "" || arrival = "" || departure = "" then none
      else
        match P arrival, P departure with
        | some s, some e =>
            if berth_raw = "Cobh Cruise Terminal" then
              let p := pax_int pax
              some { vessel := vessel, start := s, stop := e, pax := p,
                     signal := pax_signal p, mt := mt }
            else none
        | _, _ => none
    else none

/-! ### Definitions taken from the specification's words, for refinement
comparison against the source embedding -/

/-- Spec-side dedup key: the lower-cased, punctuation-stripped title
(alphanumeric characters only) paired with the start value.  Written
from the specification's words, to be compared with dedupKey. -/
def specDedupKey (e : EventRec) : String × Temporal :=
  (⟨(strLower e.title).data.filter Char.isAlphanum⟩, e.start)

/-- Spec-side recognizable-heading test: the page has a section whose
heading text matches a known label ("Location", "Event Dates").
Written from the specification's words; the source never inspects the
sections. -/
def specHasKnownHeading (pg : PageData) : Bool :=
  pg.sections.any (fun s => s.1 = "Location" || s.1 = "Event Dates")

/-! ### Claim theorems -/

/-- Claim C1.  The all-day normalization is not idempotent on the
exclusive-end convention and scenario A does not produce end =
2026-03-15: on the listing block lines of scenario A with no detail
resource, the pipeline produces the all-day record with start =
2026-03-14 but end = 2026-03-16, one day more than the claim states,
because the fallback branch already built the exclusive end 2026-03-15
and the multi-day normalization branch added a second day to it. -/
theorem claim_C1_scenario_a_double_increment :
    incobh_candidate pyParse "Community Market"
      ["Community Market", "Cobh", "Sat 14 March 2026",
       "Craft stalls and food trucks"] "" allUnknown =
      some ⟨"Community Market", .dateOnly (Date.ofYmd 2026 3 14),
        .dateOnly (Date.ofYmd 2026 3 16), "Cobh", "", "", "InCobh", []⟩ ∧
    Date.ofYmd 2026 3 16 ≠ Date.ofYmd 2026 3 15 ∧
    normalize_allday (.dateOnly (Date.ofYmd 2026 3 14))
        (.dateOnly (Date.ofYmd 2026 3 15)) =
      (.dateOnly (Date.ofYmd 2026 3 14), .dateOnly (Date.ofYmd 2026 3 16)) := by
  decide

/-- Claim C2.  The locality filter includes a candidate exactly as
claimed: with a non-empty detail locality string, inclusion holds iff
that string equals "cobh" case-insensitively, for every listing block
(the weak signal is ignored); with no locality string, inclusion holds
iff the first listing line equal to a known place name is exactly
"Cobh". -/
theorem claim_C2_locality_filter (loc : String) (lines : List String) :
    (strStrip loc ≠ "" →
      (passes_locality_filter (locality_is_cobh loc) (first_loc lines) = true ↔
        strLower (strStrip loc) = "cobh")) ∧
    (strStrip loc = "" →
      (passes_locality_filter (locality_is_cobh loc) (first_loc lines) = true ↔
        first_loc lines = some "Cobh")) := by
  constructor
  · intro hne
    rw [locality_is_cobh]
    simp only [if_neg hne]
    by_cases hc : strLower (strStrip loc) = "cobh"
    · simp [passes_locality_filter, hc]
    · simp [passes_locality_filter, hc]
  · intro he
    rw [locality_is_cobh]
    simp only [if_pos he]
    by_cases hf : first_loc lines = some "Cobh"
    · simp [passes_locality_filter, hf]
    · simp [passes_locality_filter, hf]

/-- Witness for C2 at concrete inputs: a confirmed non-Cobh locality
excludes the candidate even when the weak signal says Cobh, and with no
locality the weak signal "Cobh" includes it. -/
theorem claim_C2_locality_filter_witness :
    passes_locality_filter (locality_is_cobh "CORK")
      (first_loc ["Cobh", "Cork"]) = false ∧
    passes_locality_filter (locality_is_cobh "")
      (first_loc ["Cobh", "Cork"]) = true := by
  constructor
  · have h := (claim_C2_locality_filter "CORK" ["Cobh", "Cork"]).1 (by decide)
    have hne : passes_locality_filter (locality_is_cobh "CORK")
        (first_loc ["Cobh", "Cork"]) ≠ true :=
      fun hc => (by decide : ¬ strLower (strStrip "CORK") = "cobh") (h.mp hc)
    simpa using hne
  · exact ((claim_C2_locality_filter "" ["Cobh", "Cork"]).2 rfl).mpr (by decide)

/-- Counterexample to claim C3: a record whose start resolved to an
instant and whose end resolved to a bare date is handed to the emitter
unchanged — the instant is not downgraded in this direction of the mix,
so start and end are not the same variant kind. -/
theorem claim_C3_counterexample :
    incobh_candidate pyParse "Concert" ["Cobh"] "u"
      ⟨"Venue", some (.dtime (DateTime.ofYmdhm 2026 3 14 19 0)),
        some (.dateOnly (Date.ofYmd 2026 3 15)), [], some true⟩ =
      some ⟨"Concert", .dtime (DateTime.ofYmdhm 2026 3 14 19 0),
        .dateOnly (Date.ofYmd 2026 3 15), "Venue", "u", "", "InCobh", []⟩ ∧
    sameKind (.dtime (DateTime.ofYmdhm 2026 3 14 19 0))
      (.dateOnly (Date.ofYmd 2026 3 15)) = false := by
  decide

/-- Amended claim C3.  The mixed-variant coercion is one-directional:
when start resolves to a bare date the normalized pair is always two
bare dates (an instant end is downgraded to its date component); but
when start resolves to an instant the pair is handed to the emitter
unchanged, even if the end is a bare date. -/
theorem claim_C3_downgrade_one_direction (s e : Temporal) :
    (∀ ds, s = .dateOnly ds →
      sameKind (normalize_allday s e).1 (normalize_allday s e).2 = true) ∧
    (∀ t, s = .dtime t → normalize_allday s e = (s, e)) := by
  constructor
  · rintro ds rfl
    cases e with
    | dtime t => by_cases h : t.toDate.rd ≤ ds.rd <;>
        simp [normalize_allday, sameKind, h]
    | dateOnly de => by_cases h : de.rd ≤ ds.rd <;>
        simp [normalize_allday, sameKind, h]
  · rintro t rfl
    rfl

/-- Witness for the amended C3 at concrete endpoints. -/
theorem claim_C3_downgrade_one_direction_witness :
    sameKind
      (normalize_allday (.dateOnly (Date.ofYmd 2026 3 14))
        (.dtime (DateTime.ofYmdhm 2026 3 15 19 0))).1
      (normalize_allday (.dateOnly (Date.ofYmd 2026 3 14))
        (.dtime (DateTime.ofYmdhm 2026 3 15 19 0))).2 = true ∧
    normalize_allday (.dtime (DateTime.ofYmdhm 2026 3 14 19 0))
      (.dateOnly (Date.ofYmd 2026 3 15)) =
      (.dtime (DateTime.ofYmdhm 2026 3 14 19 0),
       .dateOnly (Date.ofYmd 2026 3 15)) :=
  ⟨(claim_C3_downgrade_one_direction
      (.dateOnly (Date.ofYmd 2026 3 14))
      (.dtime (DateTime.ofYmdhm 2026 3 15 19 0))).1 _ rfl,
   (claim_C3_downgrade_one_direction
      (.dtime (DateTime.ofYmdhm 2026 3 14 19 0))
      (.dateOnly (Date.ofYmd 2026 3 15))).2 _ rfl⟩

/-- Counterexample to claim C4: a well-formed timed sheet row (present
non-midnight start token, end token that parses) whose end time lies
before its start time is normalized to a record with end before start,
so end > start does not hold for every well-formed timed input. -/
theorem claim_C4_counterexample :
    is_midnight_like_time_str "20:00" = false ∧
    (pyParse "01/05/2026 19:00").isSome = true ∧
    parse_sheet_row pyParse "Gig" "01/05/2026" "20:00" "19:00" "" =
      some ⟨"Gig", .dtime (DateTime.ofYmdhm 2026 5 1 20 0),
        .dtime (DateTime.ofYmdhm 2026 5 1 19 0), "Cobh", "", "", "The Arch",
        []⟩ ∧
    (DateTime.ofYmdhm 2026 5 1 19 0).minutes <
      (DateTime.ofYmdhm 2026 5 1 20 0).minutes := by
  decide

/-- Amended claim C4.  end > start is guaranteed exactly on the default
duration path: for a timed sheet row whose end token is absent or fails
to parse, the normalized record has end = start + 2 hours, which is
strictly after start; an end token that parses is taken as given and
may lie at or before the start. -/
theorem claim_C4_default_duration (P : String → Option DateTime)
    (name dr st et notes : String) (s : DateTime)
    (hname : name ≠ "") (hdr : dr ≠ "")
    (hst : st ≠ "") (hmid : is_midnight_like_time_str st = false)
    (hP : P (dr ++ " " ++ st) = some s)
    (hend : et = "" ∨ P (dr ++ " " ++ et) = none) :
    parse_sheet_row P name dr st et notes =
      some ⟨name, .dtime s, .dtime (s.addMin 120), "Cobh", "", notes,
        "The Arch", []⟩ ∧
    s.minutes < (s.addMin 120).minutes := by
  refine ⟨?_, by simp [DateTime.addMin]⟩
  rw [parse_sheet_row]
  simp only [hname, hdr]
  rw [if_neg (by simp [hname, hdr])]
  simp only [hst, hmid]
  rw [if_neg (by simp [hst, hmid])]
  rw [hP]
  rcases hend with h | h
  · simp [h]
  · by_cases he : et = ""
    · simp [he]
    · simp [he, h]

/-- Witness for the amended C4 at concrete inputs (empty end token). -/
theorem claim_C4_default_duration_witness :
    parse_sheet_row pyParse "Gig night" "01/05/2026" "20:00" "" "" =
      some ⟨"Gig night", .dtime (DateTime.ofYmdhm 2026 5 1 20 0),
        .dtime ((DateTime.ofYmdhm 2026 5 1 20 0).addMin 120), "Cobh", "", "",
        "The Arch", []⟩ ∧
    (DateTime.ofYmdhm 2026 5 1 20 0).minutes <
      ((DateTime.ofYmdhm 2026 5 1 20 0).addMin 120).minutes :=
  claim_C4_default_duration pyParse "Gig night" "01/05/2026" "20:00" "" ""
    (DateTime.ofYmdhm 2026 5 1 20 0) (by decide) (by decide) (by decide)
    (by decide) (by decide) (Or.inl rfl)

/-- A month (section-label) row has exactly one cell, so it is not an
empty row. -/
theorem month_row_ne_nil {r : Row} (h : is_month_row (texts r) = true) :
    r.isEmpty = false := by
  cases r with
  | nil => exact absurd h (by decide)
  | cons a l => rfl

/-- A header row contains the required keywords, so it is not an empty
row. -/
theorem header_row_ne_nil {r : Row} (h : is_header_row (texts r) = true) :
    r.isEmpty = false := by
  cases r with
  | nil => exact absurd h (by decide)
  | cons a l => rfl

/-- An admitted data row has more cells than some column index, so it is
not an empty row. -/
theorem dataOk_ne_nil {m : ColMap} {r : Row} (h : dataOk m r.length = true) :
    r.isEmpty = false := by
  cases r with
  | nil =>
    exfalso
    unfold dataOk at h
    cases hc : requiredCols m with
    | none => rw [hc] at h; exact Bool.noConfusion h
    | some t =>
      obtain ⟨a, b, c, d⟩ := t
      rw [hc] at h
      simp at h
  | cons a l => rfl

/-- Claim C5.  For a table consisting, in order, of a section-label row,
a header row, two admitted data rows, a second section-label row, a
second header row and one admitted data row, the parser yields exactly
the three data rows, the first two paired with the ColumnMap rebuilt
from the first header row and the third with the ColumnMap rebuilt from
the second header row; neither section-label row appears as data. -/
theorem claim_C5_section_header_rescan
    (s1 h1 d1 d2 s2 h2 d3 : Row)
    (hs1 : is_month_row (texts s1) = true)
    (hs2 : is_month_row (texts s2) = true)
    (hh1 : is_header_row (texts h1) = true)
    (hh1m : is_month_row (texts h1) = false)
    (hh2 : is_header_row (texts h2) = true)
    (hh2m : is_month_row (texts h2) = false)
    (hd1m : is_month_row (texts d1) = false)
    (hd1h : is_header_row (texts d1) = false)
    (hd1 : dataOk (build_colmap (texts h1)) d1.length = true)
    (hd2m : is_month_row (texts d2) = false)
    (hd2h : is_header_row (texts d2) = false)
    (hd2 : dataOk (build_colmap (texts h1)) d2.length = true)
    (hd3m : is_month_row (texts d3) = false)
    (hd3h : is_header_row (texts d3) = false)
    (hd3 : dataOk (build_colmap (texts h2)) d3.length = true) :
    processRows none [s1, h1, d1, d2, s2, h2, d3] =
      [(build_colmap (texts h1), d1), (build_colmap (texts h1), d2),
       (build_colmap (texts h2), d3)] := by
  simp only [processRows, month_row_ne_nil hs1, month_row_ne_nil hs2,
    header_row_ne_nil hh1, header_row_ne_nil hh2, dataOk_ne_nil hd1,
    dataOk_ne_nil hd2, dataOk_ne_nil hd3, hs1, hs2, hh1, hh1m, hh2, hh2m,
    hd1m, hd1h, hd1, hd2m, hd2h, hd2, hd3m, hd3h, hd3, Bool.false_eq_true,
    if_false, if_true, ite_true, ite_false]

/-- Helper for concrete tables: a row of plain text cells without
hyperlinks. -/
def mkRow (l : List String) : Row := l.map (fun t => ⟨t, none⟩)

/-- Witness for C5 on the concrete table of the specification's
scenario: section label "April 2026", a header, two data rows, section
label "May 2026", a second header, one data row. -/
theorem claim_C5_section_header_rescan_witness :
    processRows none
      [mkRow ["April 2026"],
       mkRow ["Vessel", "Berth", "Arrival", "Departure", "Pax"],
       mkRow ["MS Alpha", "Cobh Cruise Terminal", "13/04/2026 09:00",
              "13/04/2026 18:00", "4,200"],
       mkRow ["MS Beta", "Ringaskiddy DWB", "14/04/2026 08:00",
              "14/04/2026 20:00", "900"],
       mkRow ["May 2026"],
       mkRow ["Vessel", "Berth", "Arrival", "Departure"],
       mkRow ["MS Gamma", "Cobh Cruise Terminal", "01/05/2026 07:00",
              "01/05/2026 19:00"]] =
      [(build_colmap ["Vessel", "Berth", "Arrival", "Departure", "Pax"],
        mkRow ["MS Alpha", "Cobh Cruise Terminal", "13/04/2026 09:00",
               "13/04/2026 18:00", "4,200"]),
       (build_colmap ["Vessel", "Berth", "Arrival", "Departure", "Pax"],
        mkRow ["MS Beta", "Ringaskiddy DWB", "14/04/2026 08:00",
               "14/04/2026 20:00", "900"]),
       (build_colmap ["Vessel", "Berth", "Arrival", "Departure"],
        mkRow ["MS Gamma", "Cobh Cruise Terminal", "01/05/2026 07:00",
               "01/05/2026 19:00"])] := by
  have h := claim_C5_section_header_rescan
    (mkRow ["April 2026"])
    (mkRow ["Vessel", "Berth", "Arrival", "Departure", "Pax"])
    (mkRow ["MS Alpha", "Cobh Cruise Terminal", "13/04/2026 09:00",
            "13/04/2026 18:00", "4,200"])
    (mkRow ["MS Beta", "Ringaskiddy DWB", "14/04/2026 08:00",
            "14/04/2026 20:00", "900"])
    (mkRow ["May 2026"])
    (mkRow ["Vessel", "Berth", "Arrival", "Departure"])
    (mkRow ["MS Gamma", "Cobh Cruise Terminal", "01/05/2026 07:00",
            "01/05/2026 19:00"])
    (by decide) (by decide) (by decide) (by decide) (by decide) (by decide)
    (by decide) (by decide) (by decide) (by decide) (by decide) (by decide)
    (by decide) (by decide) (by decide)
  simpa using h

/-- The dedup worker only depends on which keys have been seen, not on
the order or multiplicity of the seen list. -/
theorem dedupGo_congr :
    ∀ (l : List EventRec) (s1 s2 : List (String × Temporal)),
      (∀ k, k ∈ s1 ↔ k ∈ s2) → dedupGo s1 l = dedupGo s2 l := by
  intro l
  induction l with
  | nil => intro s1 s2 h; rfl
  | cons e rest ih =>
    intro s1 s2 h
    simp only [dedupGo]
    by_cases hm : dedupKey e ∈ s1
    · rw [if_pos hm, if_pos ((h _).mp hm)]
      exact ih s1 s2 h
    · rw [if_neg hm, if_neg (fun c => hm ((h _).mpr c))]
      exact congrArg (e :: ·) (ih _ _ (by intro k; simp [h k]))

/-- Seeding the dedup worker with one extra key is the same as first
filtering out every record carrying that key. -/
theorem dedupGo_cons_seen :
    ∀ (l : List EventRec) (s : List (String × Temporal))
      (k : String × Temporal),
      dedupGo (k :: s) l =
        dedupGo s (l.filter (fun b => decide (dedupKey b ≠ k))) := by
  intro l
  induction l with
  | nil => intro s k; rfl
  | cons e rest ih =>
    intro s k
    by_cases hk : dedupKey e = k
    · rw [List.filter_cons_of_neg (by simp [hk])]
      simp only [dedupGo]
      rw [if_pos (by rw [hk]; exact List.mem_cons_self _ _)]
      exact ih s k
    · rw [List.filter_cons_of_pos (by simp [hk])]
      by_cases hs : dedupKey e ∈ s
      · simp only [dedupGo]
        rw [if_pos (List.mem_cons_of_mem _ hs), if_pos hs]
        exact ih s k
      · simp only [dedupGo]
        rw [if_neg (by simp [hk, hs]), if_neg hs]
        refine congrArg (e :: ·) ?_
        rw [dedupGo_congr rest (dedupKey e :: k :: s) (k :: dedupKey e :: s)
          (by intro x; constructor <;> (intro hx; simp at hx ⊢; tauto))]
        exact ih (dedupKey e :: s) k

/-- Counterexample to claim C6: the dedup key is not
punctuation-stripped.  Two records whose titles differ only in
punctuation and that share the same start have equal keys under the
claimed (lower-cased, punctuation-stripped) composition, yet the dedup
pass keeps both, so the later record is not dropped. -/
theorem claim_C6_counterexample :
    specDedupKey ⟨"Market!", .dateOnly (Date.ofYmd 2026 3 14),
        .dateOnly (Date.ofYmd 2026 3 15), "Cobh", "", "", "InCobh", []⟩ =
      specDedupKey ⟨"Market", .dateOnly (Date.ofYmd 2026 3 14),
        .dateOnly (Date.ofYmd 2026 3 15), "Cobh", "", "", "InCobh", []⟩ ∧
    dedupEvents
      [⟨"Market!", .dateOnly (Date.ofYmd 2026 3 14),
         .dateOnly (Date.ofYmd 2026 3 15), "Cobh", "", "", "InCobh", []⟩,
       ⟨"Market", .dateOnly (Date.ofYmd 2026 3 14),
         .dateOnly (Date.ofYmd 2026 3 15), "Cobh", "", "", "InCobh", []⟩] =
      [⟨"Market!", .dateOnly (Date.ofYmd 2026 3 14),
         .dateOnly (Date.ofYmd 2026 3 15), "Cobh", "", "", "InCobh", []⟩,
       ⟨"Market", .dateOnly (Date.ofYmd 2026 3 14),
         .dateOnly (Date.ofYmd 2026 3 15), "Cobh", "", "", "InCobh", []⟩] := by
  decide

/-- Amended claim C6.  The listing dedup key is the lower-cased title
with punctuation retained, paired with the start value, and the dedup
pass keeps first-seen order while dropping every later record whose key
collides with an earlier one: deduplicating e :: l keeps e and then
deduplicates the rest of the list with every record whose key equals
e's key removed.  (The numeric-vessel-identifier/slug composite of the
schedule pipeline is its stable UID; that pipeline performs no dedup.) -/
theorem claim_C6_dedup_first_seen (e : EventRec) (l : List EventRec) :
    dedupEvents (e :: l) =
      e :: dedupEvents (l.filter (fun b => decide (dedupKey b ≠ dedupKey e))) := by
  unfold dedupEvents
  simp only [dedupGo]
  rw [if_neg (List.not_mem_nil _)]
  exact congrArg (e :: ·) (dedupGo_cons_seen l [] (dedupKey e))

/-- Counterexample to claim C7: on a page with no embedded structured
event metadata but with a recognizable "Location" heading, the enricher
returns the all-Unknown result anyway — no heading-anchored section
scraping is applied, so all-Unknown is not reserved for pages where
neither signal exists. -/
theorem claim_C7_counterexample :
    enrich_from_event_page (some ⟨none, [("Location", ["Main Hall"])]⟩) =
      allUnknown ∧
    specHasKnownHeading ⟨none, [("Location", ["Main Hall"])]⟩ = true := by
  decide

/-- Amended claim C7.  The enricher never raises past its boundary (it
is a total function of the fetched page): a failed fetch yields the
all-Unknown result, and a fetched page without embedded structured
event metadata yields the all-Unknown result directly, with no
heading-anchored fallback. -/
theorem claim_C7_no_jsonld_all_unknown (page : Option PageData) :
    (page = none → enrich_from_event_page page = allUnknown) ∧
    (∀ pg, page = some pg → pg.jsonld = none →
      enrich_from_event_page page = allUnknown) := by
  constructor
  · rintro rfl; rfl
  · rintro pg rfl h
    simp [enrich_from_event_page, h]

/-- Witness for the amended C7 at concrete pages. -/
theorem claim_C7_no_jsonld_all_unknown_witness :
    enrich_from_event_page none = allUnknown ∧
    enrich_from_event_page (some ⟨none, []⟩) = allUnknown :=
  ⟨(claim_C7_no_jsonld_all_unknown none).1 rfl,
   (claim_C7_no_jsonld_all_unknown (some ⟨none, []⟩)).2 _ rfl rfl⟩

/-- The crawl visits at most as many pages as it has fuel. -/
theorem crawlGo_length (fetch : Nat → Option ListingPage) :
    ∀ (fuel start : Nat), (crawlGo fetch start fuel).length ≤ fuel := by
  intro fuel
  induction fuel with
  | zero => intro start; exact Nat.le_refl 0
  | succ n ih =>
    intro start
    simp only [crawlGo]
    cases fetch start with
    | none => simp
    | some pg =>
      by_cases h : pg.h3s.isEmpty
      · simp [h]
      · simpa [h] using ih (start + 1)

/-- Every page visited after the starting page is preceded only by pages
that were fetched successfully and had a non-empty h3 list. -/
theorem crawlGo_mem (fetch : Nat → Option ListingPage) :
    ∀ (fuel start q : Nat), q ∈ crawlGo fetch start fuel →
      start ≤ q ∧ ∀ r, start ≤ r → r < q →
        ∃ pg, fetch r = some pg ∧ pg.h3s ≠ [] := by
  intro fuel
  induction fuel with
  | zero => intro start q hq; exact absurd hq (List.not_mem_nil q)
  | succ n ih =>
    intro start q hq
    simp only [crawlGo] at hq
    rcases List.mem_cons.mp hq with rfl | hq'
    · exact ⟨Nat.le_refl q, fun r hr1 hr2 => absurd hr1 (Nat.not_le_of_lt hr2)⟩
    · cases hf : fetch start with
      | none => simp only [hf] at hq'; exact absurd hq' (List.not_mem_nil q)
      | some pg =>
        simp only [hf] at hq'
        by_cases h3 : pg.h3s.isEmpty
        · rw [if_pos h3] at hq'; exact absurd hq' (List.not_mem_nil q)
        · rw [if_neg h3] at hq'
          obtain ⟨hle, hall⟩ := ih (start + 1) q hq'
          refine ⟨Nat.le_of_succ_le hle, fun r hr1 hr2 => ?_⟩
          rcases Nat.lt_or_ge r (start + 1) with hlt | hge
          · have : r = start := Nat.le_antisymm (Nat.le_of_lt_succ hlt) hr1
            subst this
            exact ⟨pg, hf, fun hnil => h3 (by simp [hnil])⟩
          · exact hall r hge hr2

/-- Counterexample to claim C8: a page whose only h3 heading carries no
hyperlink yields zero heading+link pairs, yet the crawl does not treat
it as exhausted — it goes on to visit the next page, because the stop
test only checks for the absence of h3 elements. -/
theorem claim_C8_counterexample :
    headingLinkPairs ⟨[⟨none, []⟩]⟩ = [] ∧
    2 ∈ crawlVisited (fun _ => some ⟨[⟨none, []⟩]⟩) := by
  decide

/-- Amended claim C8.  The listing crawl always terminates: it visits at
most 20 pages, and it stops paginating early exactly when a fetch fails
or a page contains no h3 headings at all — a page p (from 1 on) that was
fetched with an empty h3 list is never followed by a visit to page
p + 1.  A page whose headings merely lack links does not stop the
crawl. -/
theorem claim_C8_pagination_bound (fetch : Nat → Option ListingPage) :
    (crawlVisited fetch).length ≤ 20 ∧
    ∀ p pg, 1 ≤ p → fetch p = some pg → pg.h3s = [] →
      (p + 1) ∉ crawlVisited fetch := by
  constructor
  · exact crawlGo_length fetch 20 1
  · intro p pg hp hf hnil hmem
    obtain ⟨-, hall⟩ := crawlGo_mem fetch 20 1 (p + 1) hmem
    obtain ⟨pg', hf', hne⟩ := hall p hp (Nat.lt_succ_self p)
    rw [hf] at hf'
    exact hne (by cases hf'; exact hnil)

/-- Witness for the amended C8 at concrete fetch functions: the length
bound for a crawl whose first fetch fails, and the early stop after a
fetched page with no h3 headings. -/
theorem claim_C8_pagination_bound_witness :
    (crawlVisited (fun _ => none)).length ≤ 20 ∧
    2 ∉ crawlVisited (fun _ => some ⟨[]⟩) :=
  ⟨(claim_C8_pagination_bound (fun _ => none)).1,
   (claim_C8_pagination_bound (fun _ => some ⟨[]⟩)).2 1 ⟨[]⟩
     (Nat.le_refl 1) rfl rfl⟩

/-- Claim C9.  The concrete schedule row with berth exactly "Cobh Cruise
Terminal", arrival "13/04/2026 09:00", departure "13/04/2026 18:00" and
passenger cell "4,200" yields a timed Cobh record with passenger count
4200 and the highest-tier signal; for every parser, map and row, a row
whose berth cell differs from "Cobh Cruise Terminal" is not retained for
the Cobh output, and a row whose arrival or departure fails to parse is
dropped. -/
theorem claim_C9_cobh_row :
    (process_cobh_row pyParse
      (build_colmap ["Vessel", "Berth", "Arrival", "Departure", "Pax"])
      [⟨"MS Example", none⟩, ⟨"Cobh Cruise Terminal", none⟩,
       ⟨"13/04/2026 09:00", none⟩, ⟨"13/04/2026 18:00", none⟩,
       ⟨"4,200", none⟩] =
      some ⟨"MS Example", DateTime.ofYmdhm 2026 4 13 9 0,
        DateTime.ofYmdhm 2026 4 13 18 0, some 4200, "🔴", ""⟩) ∧
    (∀ (P : String → Option DateTime) (m : ColMap) (cells : Row)
       (iv ib ia idp : Nat),
      requiredCols m = some (iv, ib, ia, idp) →
      cellText cells ib ≠ "Cobh Cruise Terminal" →
      process_cobh_row P m cells = none) ∧
    (∀ (P : String → Option DateTime) (m : ColMap) (cells : Row)
       (iv ib ia idp : Nat),
      requiredCols m = some (iv, ib, ia, idp) →
      (P (cellText cells ia) = none ∨ P (cellText cells idp) = none) →
      process_cobh_row P m cells = none) := by
  refine ⟨by decide, ?_, ?_⟩
  · intro P m cells iv ib ia idp hreq hb
    simp only [process_cobh_row, hreq]
    split
    · split
      · rfl
      · cases hA : P (cellText cells ia) <;>
          cases hD : P (cellText cells idp) <;> simp [hb]
    · rfl
  · intro P m cells iv ib ia idp hreq hpd
    simp only [process_cobh_row, hreq]
    split
    · split
      · rfl
      · cases hA : P (cellText cells ia) with
        | none => cases hD : P (cellText cells idp) <;> simp
        | some s =>
          cases hD : P (cellText cells idp) with
          | none => simp
          | some e =>
            rcases hpd with h | h
            · simp [hA] at h
            · simp [hD] at h
    · rfl

/-- Witness for the universal parts of C9: a row berthed at "Ringaskiddy
DWB" is not retained for the Cobh output, and a row whose arrival cell
does not parse is dropped. -/
theorem claim_C9_cobh_row_witness :
    process_cobh_row pyParse
      (build_colmap ["Vessel", "Berth", "Arrival", "Departure", "Pax"])
      [⟨"MS Beta", none⟩, ⟨"Ringaskiddy DWB", none⟩,
       ⟨"14/04/2026 08:00", none⟩, ⟨"14/04/2026 20:00", none⟩,
       ⟨"900", none⟩] = none ∧
    process_cobh_row pyParse
      (build_colmap ["Vessel", "Berth", "Arrival", "Departure", "Pax"])
      [⟨"MS Gamma", none⟩, ⟨"Cobh Cruise Terminal", none⟩,
       ⟨"soon", none⟩, ⟨"01/05/2026 19:00", none⟩, ⟨"100", none⟩] = none :=
  ⟨claim_C9_cobh_row.2.1 pyParse
     (build_colmap ["Vessel", "Berth", "Arrival", "Departure", "Pax"])
     [⟨"MS Beta", none⟩, ⟨"Ringaskiddy DWB", none⟩,
      ⟨"14/04/2026 08:00", none⟩, ⟨"14/04/2026 20:00", none⟩,
      ⟨"900", none⟩] 0 1 2 3 (by decide) (by decide),
   claim_C9_cobh_row.2.2 pyParse
     (build_colmap ["Vessel", "Berth", "Arrival", "Departure", "Pax"])
     [⟨"MS Gamma", none⟩, ⟨"Cobh Cruise Terminal", none⟩,
      ⟨"soon", none⟩, ⟨"01/05/2026 19:00", none⟩, ⟨"100", none⟩]
     0 1 2 3 (by decide) (Or.inl (by decide))⟩

/-- Claim C10.  The best-effort date-line parse discards every date
whose year is earlier than 2020; consequently a listing fallback
candidate whose all-day date line parses to a pre-2020 year is dropped,
while the sheet pipeline's all-day branch falls back to the full parse
without the cutoff and keeps the pre-2020 date. -/
theorem claim_C10_year_cutoff :
    (∀ (P : String → Option DateTime) (line : String) (t : DateTime),
      P line = some t → t.toDate.year < 2020 →
      parse_date_only_line P line = none) ∧
    (∀ (P : String → Option DateTime) (lines : List String) (dl : String)
       (t : DateTime),
      pick_first_line_with_year
        (if lines.contains "Cobh" then afterFirstCobh lines else lines) =
        some dl →
      pick_first_hhmm
        (if lines.contains "Cobh" then afterFirstCobh lines else lines) =
        none →
      P dl = some t → t.toDate.year < 2020 →
      listing_fallback_dates P lines = none) ∧
    (∀ (P : String → Option DateTime) (name dr notes : String) (t : DateTime),
      name ≠ "" → dr ≠ "" → P dr = some t → t.toDate.year < 2020 →
      parse_sheet_row P name dr "" "" notes =
        some ⟨name, .dateOnly t.toDate, .dateOnly (t.toDate.addDays 1),
          "Cobh", "", notes, "The Arch", []⟩) := by
  refine ⟨?_, ?_, ?_⟩
  · intro P line t hP hy
    unfold parse_date_only_line
    simp only [hP]
    rw [if_neg (by omega)]
  · intro P lines dl t hpick hh hP hy
    simp only [listing_fallback_dates]
    rw [hpick]
    simp only [hh, Option.getD_none]
    rw [if_pos (by decide)]
    unfold parse_date_only_line
    simp only [hP]
    rw [if_neg (by omega)]
  · intro P name dr notes t hname hdr hP hy
    simp only [parse_sheet_row]
    rw [if_neg (by simp [hname, hdr])]
    rw [if_pos (by simp)]
    unfold parse_date_only_line
    simp only [hP]
    rw [if_neg (by omega)]
    rfl

/-- Witness for C10 at the concrete line "14/03/2019": the date-only
parse rejects it, the listing fallback drops the candidate, and the
sheet all-day branch keeps the 2019 date through its full-parse
fallback. -/
theorem claim_C10_year_cutoff_witness :
    parse_date_only_line pyParse "14/03/2019" = none ∧
    listing_fallback_dates pyParse ["Cobh", "14/03/2019"] = none ∧
    parse_sheet_row pyParse "Old Fair" "14/03/2019" "" "" "" =
      some ⟨"Old Fair", .dateOnly (Date.ofYmd 2019 3 14),
        .dateOnly (Date.ofYmd 2019 3 15), "Cobh", "", "", "The Arch", []⟩ := by
  refine ⟨?_, ?_, ?_⟩
  · exact claim_C10_year_cutoff.1 pyParse "14/03/2019"
      (DateTime.ofYmdhm 2019 3 14 0 0) (by decide) (by decide)
  · exact claim_C10_year_cutoff.2.1 pyParse ["Cobh", "14/03/2019"]
      "14/03/2019" (DateTime.ofYmdhm 2019 3 14 0 0) (by decide) (by decide)
      (by decide) (by decide)
  · have h := claim_C10_year_cutoff.2.2 pyParse "Old Fair" "14/03/2019" ""
      (DateTime.ofYmdhm 2019 3 14 0 0) (by decide) (by decide) (by decide)
      (by decide)
    rw [show (DateTime.ofYmdhm 2019 3 14 0 0).toDate = Date.ofYmd 2019 3 14
          from by decide] at h
    rw [show (Date.ofYmd 2019 3 14).addDays 1 = Date.ofYmd 2019 3 15
          from by decide] at h
    exact h

end CobhSched
